import Mathlib

/-!
Shallow embedding of `src/app.py` (a small Flask service that reads an essay
from a Notion page, has a Groq model correct it, and writes the three reply
sections back into a Notion database row), together with proofs of the
specified properties of its pure core: `get_page_content` (response decoding
and paragraph joining), `correct_grammar` (reply splitting), `clean_text`
(bracket-label removal), `update_notion_page` (field cleaning and the single
PATCH), and the `trigger_python` handler control flow.

Strings are embedded as `List Char`; Python `str.strip`, `str.split("\n\n")`
and `re.sub(r"\[.*?\]", "", text)` are embedded with their exact semantics
(leftmost non-overlapping matching, `.` not matching a newline, the Unicode
whitespace set of `str.strip`).  The three outbound HTTP calls are modelled by
explicit parameters (the decoded read response, the model reply text, the
PATCH status) and an emitted call trace.
-/

abbrev PyStr := List Char

/-- Python `str.isspace` characters: the whitespace set that `str.strip`
removes from both ends. -/
def isPySpace (c : Char) : Bool :=
  c ∈ [' ', '\t', '\n', '\x0b', '\x0c', '\r',
       '\x1c', '\x1d', '\x1e', '\x1f', '\x85', '\xa0',
       ' ', ' ', ' ', ' ', ' ', ' ', ' ',
       ' ', ' ', ' ', ' ', ' ',
       ' ', ' ', ' ', ' ', '　']

/-- Python `str.strip()`: drop whitespace from the front and from the back. -/
def pyStrip (l : PyStr) : PyStr := List.rdropWhile isPySpace (l.dropWhile isPySpace)

/-- Python `str.split("\n\n")`: split at each leftmost non-overlapping
occurrence of the two-character separator.  `splitNN [] = [[]]` because
Python `"".split(s)` is `[""]`. -/
def splitNN : PyStr → List PyStr
  | [] => [[]]
  | '\n' :: '\n' :: rest => [] :: splitNN rest
  | c :: rest =>
    match splitNN rest with
    | s :: ss => (c :: s) :: ss
    | [] => [[c]]

/-- Scanner for the tail of a `\[.*?\]` match: after an opening bracket, the
lazy `.*?` extends to the first closing bracket, and `.` does not match a
newline, so the match succeeds exactly when a closing bracket occurs before
any newline; the result is the remainder after that closing bracket. -/
def findClose : PyStr → Option PyStr
  | [] => none
  | c :: rest => if c = ']' then some rest else if c = '\n' then none else findClose rest

/-- Fuel-indexed left-to-right scanner removing every leftmost non-overlapping
match of `\[.*?\]`, as `re.sub` does; the fuel only serves structural
recursion and any fuel at least the length of the list gives the true
result. -/
def subBracketsF : Nat → PyStr → PyStr
  | 0, l => l
  | _ + 1, [] => []
  | f + 1, c :: rest =>
    if c = '[' then
      match findClose rest with
      | some rest' => subBracketsF f rest'
      | none => c :: subBracketsF f rest
    else c :: subBracketsF f rest

/-- Python `re.sub(r"\[.*?\]", "", l)`. -/
def subBrackets (l : PyStr) : PyStr := subBracketsF l.length l

/-- `clean_text` from `src/app.py`: `re.sub(r"\[.*?\]", "", text).strip()`. -/
def clean_text (text : PyStr) : PyStr := pyStrip (subBrackets text)

/-- Does the text contain a match of `\[.*?\]`: an opening bracket followed,
with no intervening newline, by a closing bracket?  This is the decidable
meaning of the claim phrase "contains a bracketed span". -/
def hasSpan : PyStr → Bool
  | [] => false
  | c :: rest => if c = '[' then (findClose rest).isSome || hasSpan rest else hasSpan rest

/-- The text object of one rich-text entry, `rich_text[i].text`. -/
structure TextObj where
  content : PyStr
deriving DecidableEq

/-- One entry of a paragraph rich-text list. -/
structure RichTextEntry where
  text : TextObj
deriving DecidableEq

/-- The paragraph payload of a block, holding its `rich_text` list. -/
structure ParagraphPayload where
  rich_text : List RichTextEntry
deriving DecidableEq

/-- One Notion block as `get_page_content` reads it: the type tag and the
paragraph payload (the latter is only consulted when the type tag is
"paragraph"). -/
structure Block where
  type : PyStr
  paragraph : ParagraphPayload
deriving DecidableEq

def paragraphType : PyStr := "paragraph".toList

/-- `get_page_content` from `src/app.py`, applied to the decoded JSON body of
the document-service read: `none` models a body with no "results" key, in
which case the function returns `None`; otherwise the source loops over the
blocks, skips non-paragraphs and paragraphs with empty `rich_text`, appends
`block["paragraph"]["rich_text"][0]["text"]["content"]` for the rest, and
returns the `"\n".join` of the collected texts (a plain string, never
`None`).  `collectParagraph` is the body of the source loop. -/
def collectParagraph (acc : List PyStr) (block : Block) : List PyStr :=
  if block.type = paragraphType then
    match block.paragraph.rich_text with
    | [] => acc
    | entry :: _ => acc ++ [entry.text.content]
  else acc

def get_page_content (data : Option (List Block)) : Option PyStr :=
  match data with
  | none => none
  | some results =>
    let content := results.foldl collectParagraph []
    some (List.intercalate ['\n'] content)

/-- Spec-side description of the collected texts: the first rich-text content
of each paragraph block whose rich-text list is non-empty, in block order. -/
def paragraphTexts (results : List Block) : List PyStr :=
  results.filterMap fun block =>
    if block.type = paragraphType then
      match block.paragraph.rich_text with
      | [] => none
      | entry :: _ => some entry.text.content
    else none

/-- The diagnostic string returned by `correct_grammar` when the reply does
not split into at least three segments. -/
def groqErrorMsg : PyStr := "錯誤：Groq 回應格式異常".toList

/-- `correct_grammar` from `src/app.py`, from the model reply onward (the
prompt construction and the completion call are external I/O; the argument is
the reply text `response.choices[0].message.content`): strip the reply, split
it on `"\n\n"`, and return the first three segments positionally, or the
fixed diagnostic triple when fewer than three segments result. -/
def correct_grammar (reply : PyStr) : PyStr × PyStr × PyStr :=
  let gpt_response := splitNN (pyStrip reply)
  if gpt_response.length < 3 then (groqErrorMsg, [], [])
  else (gpt_response.getD 0 [], gpt_response.getD 1 [], gpt_response.getD 2 [])

def fieldCorrected : PyStr := "GPT 修正後短文".toList
def fieldAnalysis : PyStr := "錯誤分析 ".toList
def fieldTips : PyStr := "GPT 高分建議".toList

/-- One PATCH request issued to the document service: the target row page id
and the properties mapping, as pairs of field name and rich-text content. -/
structure UpdateCall where
  row_page_id : PyStr
  properties : List (PyStr × PyStr)
deriving DecidableEq

/-- `update_notion_page` from `src/app.py`: clean the three inputs with
`clean_text`, then issue one PATCH setting the three fixed fields to the
cleaned values.  The returned list is the sequence of PATCH requests the call
issues. -/
def update_notion_page (row_page_id corrected_text error_analysis high_score_tips : PyStr) :
    List UpdateCall :=
  let corrected_text := clean_text corrected_text
  let error_analysis := clean_text error_analysis
  let high_score_tips := clean_text high_score_tips
  [{ row_page_id := row_page_id
     properties := [(fieldCorrected, corrected_text), (fieldAnalysis, error_analysis),
                    (fieldTips, high_score_tips)] }]

/-- One outbound call made while handling `/trigger-python`: the document
read, the model completion, or the Result Writer invocation with its three
text arguments. -/
inductive OutCall where
  | read (page_id : PyStr)
  | complete (essay : PyStr)
  | write (row_page_id : PyStr) (args : PyStr × PyStr × PyStr)
deriving DecidableEq

/-- Python truthiness of `request.args.get(...)`: `None` (parameter missing)
and the empty string are falsy. -/
def pyFalsyOpt : Option PyStr → Bool
  | none => true
  | some s => s.isEmpty

def missingIdMsg : PyStr := "❌ 缺少必要的 Page ID".toList
def noContentMsg : PyStr := "❌ 短文庫內沒有內容".toList

/-- The fixed HTML success page returned by the handler, transcribed from the
triple-quoted literal in `src/app.py` (braces written as escapes). -/
def success_html : PyStr :=
  ("\n    <html>\n    <script>\n        function goToNotion() \x7b\n            window.location.href = \"notion://\";  // 嘗試開啟 Notion App\n\n            // 延遲 3 秒後關閉網頁，確保有時間按「開啟 Notion」\n            setTimeout(() => \x7b \n                window.close();  \n            \x7d, 3000);  // 3 秒後關閉，時間可調整\n        \x7d\n    </script>\n\n    <body>\n        ✅ Flask 批改完成！結果已回寫到 Notion！\n        <br><br>\n        <a id=\"notion-link\" href=\"notion://\" onclick=\"goToNotion()\">👉 點這裡回 Notion</a>\n    </body>\n    </html>\n    ").toList

/-- The observable outcome of one handler invocation: HTTP status, response
body, and the trace of outbound calls in order. -/
structure HandlerResult where
  status : Nat
  body : PyStr
  calls : List OutCall
deriving DecidableEq

/-- `trigger_python` from `src/app.py`.  The parameters model the two query
parameters (`none` when absent), the decoded document-service response for
the read, the model reply text, and the HTTP status of the PATCH response —
which the source only prints and never branches on. -/
def trigger_python (text_page_id row_page_id : Option PyStr)
    (docResponse : Option (List Block)) (reply : PyStr) (_writeStatus : Nat) :
    HandlerResult :=
  if pyFalsyOpt text_page_id || pyFalsyOpt row_page_id then
    { status := 400, body := missingIdMsg, calls := [] }
  else
    let tid := text_page_id.getD []
    let rid := row_page_id.getD []
    match get_page_content docResponse with
    | none => { status := 400, body := noContentMsg, calls := [OutCall.read tid] }
    | some c =>
      if c.isEmpty then { status := 400, body := noContentMsg, calls := [OutCall.read tid] }
      else
        { status := 200, body := success_html,
          calls := [OutCall.read tid, OutCall.complete c,
                    OutCall.write rid (correct_grammar reply)] }

/-! Helper lemmas about the bracket scanner. -/

theorem findClose_length : ∀ l l' : PyStr, findClose l = some l' → l'.length < l.length := by
  intro l
  induction l with
  | nil => intro l' h; simp [findClose] at h
  | cons c rest ih =>
    intro l' h
    by_cases hc : c = ']'
    · simp only [findClose, if_pos hc, Option.some.injEq] at h
      subst h
      simp
    · by_cases hn : c = '\n'
      · simp [findClose, hc, hn] at h
      · simp only [findClose, if_neg hc, if_neg hn] at h
        exact Nat.lt_trans (ih l' h) (Nat.lt_succ_self _)

theorem subBracketsF_congr : ∀ f₁ f₂ : Nat, ∀ l : PyStr, l.length ≤ f₁ → l.length ≤ f₂ →
    subBracketsF f₁ l = subBracketsF f₂ l := by
  intro f₁
  induction f₁ with
  | zero =>
    intro f₂ l h1 _
    have hl : l = [] := List.eq_nil_of_length_eq_zero (Nat.le_zero.mp h1)
    subst hl
    cases f₂ <;> simp [subBracketsF]
  | succ f ih =>
    intro f₂ l h1 h2
    cases f₂ with
    | zero =>
      have hl : l = [] := List.eq_nil_of_length_eq_zero (Nat.le_zero.mp h2)
      subst hl
      simp [subBracketsF]
    | succ f' =>
      cases l with
      | nil => simp [subBracketsF]
      | cons c rest =>
        have hr1 : rest.length ≤ f := by simpa using h1
        have hr2 : rest.length ≤ f' := by simpa using h2
        simp only [subBracketsF]
        by_cases hc : c = '['
        · simp only [if_pos hc]
          cases hfc : findClose rest with
          | some rest' =>
            have hlen := findClose_length rest rest' hfc
            exact ih f' rest' (by omega) (by omega)
          | none =>
            simp only [List.cons.injEq, true_and]
            exact ih f' rest hr1 hr2
        · simp only [if_neg hc, List.cons.injEq, true_and]
          exact ih f' rest hr1 hr2

theorem subBrackets_nil : subBrackets [] = [] := rfl

theorem subBrackets_cons_some {rest rest' : PyStr} (h : findClose rest = some rest') :
    subBrackets ('[' :: rest) = subBrackets rest' := by
  unfold subBrackets
  simp only [List.length_cons, subBracketsF, if_pos rfl, h]
  exact subBracketsF_congr rest.length rest'.length rest'
    (Nat.le_of_lt (findClose_length rest rest' h)) (Nat.le_refl _)

theorem subBrackets_cons_none {rest : PyStr} (h : findClose rest = none) :
    subBrackets ('[' :: rest) = '[' :: subBrackets rest := by
  unfold subBrackets
  simp only [List.length_cons, subBracketsF, if_pos rfl, h, ite_self]

theorem subBrackets_cons_of_ne {c : Char} {rest : PyStr} (hc : c ≠ '[') :
    subBrackets (c :: rest) = c :: subBrackets rest := by
  unfold subBrackets
  simp only [List.length_cons, subBracketsF, if_neg hc]

theorem findClose_subBrackets_none : ∀ l : PyStr, findClose l = none →
    findClose (subBrackets l) = none := by
  intro l
  induction l with
  | nil => intro _; simp [subBrackets_nil, findClose]
  | cons c rest ih =>
    intro h
    by_cases hc : c = ']'
    · simp [findClose, hc] at h
    · by_cases hn : c = '\n'
      · subst hn
        rw [subBrackets_cons_of_ne (by decide)]
        simp [findClose]
      · have hr : findClose rest = none := by
          simpa only [findClose, if_neg hc, if_neg hn] using h
        by_cases hb : c = '['
        · subst hb
          rw [subBrackets_cons_none hr]
          simpa only [findClose, if_neg hc, if_neg hn] using ih hr
        · rw [subBrackets_cons_of_ne hb]
          simpa only [findClose, if_neg hc, if_neg hn] using ih hr

theorem hasSpan_cons_open (rest : PyStr) :
    hasSpan ('[' :: rest) = ((findClose rest).isSome || hasSpan rest) := by
  simp [hasSpan]

theorem hasSpan_cons_of_ne {c : Char} (hc : c ≠ '[') (rest : PyStr) :
    hasSpan (c :: rest) = hasSpan rest := by
  simp [hasSpan, hc]

theorem hasSpan_subBrackets_aux : ∀ n : Nat, ∀ l : PyStr, l.length ≤ n →
    hasSpan (subBrackets l) = false := by
  intro n
  induction n with
  | zero =>
    intro l h
    have hl : l = [] := List.eq_nil_of_length_eq_zero (Nat.le_zero.mp h)
    subst hl
    simp [subBrackets_nil, hasSpan]
  | succ n ih =>
    intro l h
    cases l with
    | nil => simp [subBrackets_nil, hasSpan]
    | cons c rest =>
      have hr : rest.length ≤ n := by simpa using h
      by_cases hb : c = '['
      · subst hb
        cases hfc : findClose rest with
        | some rest' =>
          rw [subBrackets_cons_some hfc]
          exact ih rest' (by have := findClose_length rest rest' hfc; omega)
        | none =>
          rw [subBrackets_cons_none hfc, hasSpan_cons_open,
              findClose_subBrackets_none rest hfc]
          simp [ih rest hr]
      · rw [subBrackets_cons_of_ne hb, hasSpan_cons_of_ne hb]
        exact ih rest hr

theorem hasSpan_subBrackets (l : PyStr) : hasSpan (subBrackets l) = false :=
  hasSpan_subBrackets_aux l.length l (Nat.le_refl _)

theorem subBrackets_of_not_hasSpan : ∀ l : PyStr, hasSpan l = false → subBrackets l = l := by
  intro l
  induction l with
  | nil => intro _; rfl
  | cons c rest ih =>
    intro h
    by_cases hb : c = '['
    · subst hb
      rw [hasSpan_cons_open] at h
      obtain ⟨h1, h2⟩ := Bool.or_eq_false_iff.mp h
      have hfc : findClose rest = none := by
        cases hfc : findClose rest with
        | none => rfl
        | some s => rw [hfc] at h1; simp at h1
      rw [subBrackets_cons_none hfc, ih h2]
    · rw [hasSpan_cons_of_ne hb] at h
      rw [subBrackets_cons_of_ne hb, ih h]

theorem findClose_append_none : ∀ l₁ l₂ : PyStr, findClose (l₁ ++ l₂) = none →
    findClose l₁ = none := by
  intro l₁ l₂
  induction l₁ with
  | nil => intro _; rfl
  | cons c t ih =>
    intro h
    by_cases hc : c = ']'
    · simp [findClose, hc] at h
    · by_cases hn : c = '\n'
      · simp [findClose, hc, hn]
      · simp only [List.cons_append, findClose, if_neg hc, if_neg hn] at h ⊢
        exact ih h

theorem hasSpan_append_left : ∀ l₁ l₂ : PyStr, hasSpan (l₁ ++ l₂) = false →
    hasSpan l₁ = false := by
  intro l₁ l₂
  induction l₁ with
  | nil => intro _; rfl
  | cons c t ih =>
    intro h
    by_cases hb : c = '['
    · subst hb
      rw [List.cons_append, hasSpan_cons_open] at h
      obtain ⟨h1, h2⟩ := Bool.or_eq_false_iff.mp h
      have hfc : findClose (t ++ l₂) = none := by
        cases hfc : findClose (t ++ l₂) with
        | none => rfl
        | some s => rw [hfc] at h1; simp at h1
      rw [hasSpan_cons_open, findClose_append_none t l₂ hfc]
      simp [ih h2]
    · rw [List.cons_append, hasSpan_cons_of_ne hb] at h
      rw [hasSpan_cons_of_ne hb]
      exact ih h

theorem hasSpan_tail {c : Char} {t : PyStr} (h : hasSpan (c :: t) = false) :
    hasSpan t = false := by
  by_cases hb : c = '['
  · subst hb
    rw [hasSpan_cons_open] at h
    exact (Bool.or_eq_false_iff.mp h).2
  · rwa [hasSpan_cons_of_ne hb] at h

theorem hasSpan_dropWhile (p : Char → Bool) : ∀ l : PyStr, hasSpan l = false →
    hasSpan (l.dropWhile p) = false := by
  intro l
  induction l with
  | nil => intro _; rfl
  | cons c t ih =>
    intro h
    rw [List.dropWhile_cons]
    by_cases hp : p c
    · simp only [hp, if_true]
      exact ih (hasSpan_tail h)
    · simpa only [hp, Bool.false_eq_true, if_false] using h

theorem hasSpan_rdropWhile (p : Char → Bool) (l : PyStr) (h : hasSpan l = false) :
    hasSpan (List.rdropWhile p l) = false := by
  have hpre := List.rdropWhile_prefix p l
  obtain ⟨t, ht⟩ := hpre
  rw [← ht] at h
  exact hasSpan_append_left _ t h

theorem hasSpan_pyStrip (l : PyStr) (h : hasSpan l = false) :
    hasSpan (pyStrip l) = false :=
  hasSpan_rdropWhile isPySpace _ (hasSpan_dropWhile isPySpace l h)

theorem dropWhile_eq_self_of_head {p : Char → Bool} {l : PyStr}
    (h : ∀ c t, l = c :: t → p c = false) : l.dropWhile p = l := by
  cases l with
  | nil => rfl
  | cons c t =>
    rw [List.dropWhile_cons]
    simp [h c t rfl]

theorem pyStrip_idem (l : PyStr) : pyStrip (pyStrip l) = pyStrip l := by
  unfold pyStrip
  have hA : List.dropWhile isPySpace (List.dropWhile isPySpace l) =
      List.dropWhile isPySpace l := List.dropWhile_idempotent isPySpace l
  have hpre := List.rdropWhile_prefix isPySpace (List.dropWhile isPySpace l)
  obtain ⟨t, ht⟩ := hpre
  have hdropB :
      List.dropWhile isPySpace
          (List.rdropWhile isPySpace (List.dropWhile isPySpace l)) =
        List.rdropWhile isPySpace (List.dropWhile isPySpace l) := by
    apply dropWhile_eq_self_of_head
    intro c s hcs
    by_contra hpc
    have hpc' : isPySpace c = true := by
      cases hv : isPySpace c with
      | false => exact absurd hv hpc
      | true => rfl
    have hA2 : List.dropWhile isPySpace l = c :: (s ++ t) := by
      rw [← ht, hcs]
      simp
    rw [hA2, List.dropWhile_cons] at hA
    simp only [hpc', if_true] at hA
    have hlen := congrArg List.length hA
    have hle := (List.dropWhile_sublist (l := s ++ t) isPySpace).length_le
    simp only [List.length_cons, List.length_append] at hlen hle
    omega
  rw [hdropB]
  exact List.rdropWhile_idempotent isPySpace _

theorem clean_text_idem (x : PyStr) : clean_text (clean_text x) = clean_text x := by
  unfold clean_text
  have h1 : hasSpan (subBrackets x) = false := hasSpan_subBrackets x
  have h2 : hasSpan (pyStrip (subBrackets x)) = false := hasSpan_pyStrip _ h1
  rw [subBrackets_of_not_hasSpan _ h2]
  exact pyStrip_idem _

theorem clean_text_of_not_hasSpan {x : PyStr} (h : hasSpan x = false) :
    clean_text x = pyStrip x := by
  unfold clean_text
  rw [subBrackets_of_not_hasSpan x h]

/-- A paragraph block with non-empty rich text: the blocks that contribute a
segment to the page content. -/
def usableBlock (block : Block) : Bool :=
  if block.type = paragraphType then !block.paragraph.rich_text.isEmpty else false

theorem foldl_collectParagraph : ∀ (results : List Block) (acc : List PyStr),
    results.foldl collectParagraph acc = acc ++ paragraphTexts results := by
  intro results
  induction results with
  | nil => intro acc; simp [paragraphTexts]
  | cons b bs ih =>
    intro acc
    rw [List.foldl_cons, ih]
    unfold collectParagraph paragraphTexts
    rw [List.filterMap_cons]
    by_cases hb : b.type = paragraphType
    · cases hrt : b.paragraph.rich_text with
      | nil => simp [hb, hrt]
      | cons e es => simp [hb, hrt, List.append_assoc]
    · simp [hb]

theorem get_page_content_eq (results : List Block) :
    get_page_content (some results) =
      some (List.intercalate ['\n'] (paragraphTexts results)) := by
  show some (List.intercalate ['\n'] (results.foldl collectParagraph [])) = _
  rw [foldl_collectParagraph results []]
  rfl

theorem paragraphTexts_length : ∀ results : List Block,
    (paragraphTexts results).length = (results.filter usableBlock).length := by
  intro results
  induction results with
  | nil => rfl
  | cons b bs ih =>
    unfold paragraphTexts
    rw [List.filterMap_cons, List.filter_cons]
    by_cases hb : b.type = paragraphType
    · cases hrt : b.paragraph.rich_text with
      | nil =>
        have hu : usableBlock b = false := by simp [usableBlock, hb, hrt]
        simp only [hb, if_pos, hrt, hu]
        simpa [paragraphTexts, hb, hrt] using ih
      | cons e es =>
        have hu : usableBlock b = true := by simp [usableBlock, hb, hrt]
        simp only [hb, if_pos, hrt, hu]
        simpa [paragraphTexts, hb, hrt] using ih
    · have hu : usableBlock b = false := by simp [usableBlock, hb]
      simp only [hb, hu]
      simpa [paragraphTexts, hb] using ih

theorem correct_grammar_of_short {reply : PyStr}
    (h : (splitNN (pyStrip reply)).length < 3) :
    correct_grammar reply = (groqErrorMsg, [], []) := by
  unfold correct_grammar
  rw [if_pos h]

theorem correct_grammar_of_long {reply : PyStr} {a b c : PyStr} {rest : List PyStr}
    (h : splitNN (pyStrip reply) = a :: b :: c :: rest) :
    correct_grammar reply = (a, b, c) := by
  unfold correct_grammar
  rw [h]
  rw [if_neg (by simp)]
  rfl

/-! Claim theorems. -/

/-- C1: for every model reply whose stripped text splits on the double-newline
delimiter into at least 3 segments, `correct_grammar` returns exactly the
first three segments, assigned positionally to (correctedText, errorAnalysis,
suggestions), verbatim and without any label-keyed matching; segments beyond
the third are discarded. -/
theorem correct_grammar_first_three (reply a b c : PyStr) (rest : List PyStr)
    (h : splitNN (pyStrip reply) = a :: b :: c :: rest) :
    correct_grammar reply = (a, b, c) :=
  correct_grammar_of_long h

theorem correct_grammar_first_three_witness :
    correct_grammar (" One\n\nTwo\n\nThree\n\nFour ".toList) =
      ("One".toList, "Two".toList, "Three".toList) :=
  correct_grammar_first_three (" One\n\nTwo\n\nThree\n\nFour ".toList)
    ("One".toList) ("Two".toList) ("Three".toList) (["Four".toList]) (by decide)

/-- C2: for every model reply whose stripped text splits on the double-newline
delimiter into fewer than 3 segments, `correct_grammar` does not fail but
returns the fixed triple (diagnostic string, empty string, empty string),
discarding any partial segments the reply did contain. -/
theorem correct_grammar_malformed (reply : PyStr)
    (h : (splitNN (pyStrip reply)).length < 3) :
    correct_grammar reply = (groqErrorMsg, [], []) :=
  correct_grammar_of_short h

theorem correct_grammar_malformed_witness :
    correct_grammar ("Partial\n\nReply".toList) = (groqErrorMsg, [], []) :=
  correct_grammar_malformed ("Partial\n\nReply".toList) (by decide)

/-- C3: for every document-service response whose results list has N ≥ 1
paragraph blocks with non-empty rich-text lists, `get_page_content` returns
the newline-join of exactly those N blocks' first rich-text contents, in block
order (N counts the usable paragraph blocks); paragraph blocks with an empty
rich-text list contribute no segment and no blank line, having been excluded
before the join. -/
theorem get_page_content_segments (results : List Block)
    (h : 1 ≤ (paragraphTexts results).length) :
    get_page_content (some results) =
        some (List.intercalate ['\n'] (paragraphTexts results)) ∧
      (paragraphTexts results).length = (results.filter usableBlock).length :=
  ⟨get_page_content_eq results, paragraphTexts_length results⟩

theorem get_page_content_segments_witness :
    get_page_content (some
        [{ type := "paragraph".toList, paragraph := ⟨[⟨⟨"First".toList⟩⟩]⟩ },
         { type := "divider".toList, paragraph := ⟨[]⟩ },
         { type := "paragraph".toList, paragraph := ⟨[]⟩ },
         { type := "paragraph".toList, paragraph := ⟨[⟨⟨"Second".toList⟩⟩, ⟨⟨"Extra".toList⟩⟩]⟩ }]) =
      some ("First\nSecond".toList) := by
  have h := get_page_content_segments
    [{ type := "paragraph".toList, paragraph := ⟨[⟨⟨"First".toList⟩⟩]⟩ },
     { type := "divider".toList, paragraph := ⟨[]⟩ },
     { type := "paragraph".toList, paragraph := ⟨[]⟩ },
     { type := "paragraph".toList, paragraph := ⟨[⟨⟨"Second".toList⟩⟩, ⟨⟨"Extra".toList⟩⟩]⟩ }]
    (by decide)
  exact h.1.trans (by decide)

/-- C4 counterexample: with a response that has a results list but no
paragraph text (here the empty results list), `get_page_content` returns the
empty string, not the absent value `None` — refuting the claim that both
no-results and no-paragraph-text responses yield the absent value. -/
theorem get_page_content_empty_results_not_none :
    get_page_content (some []) = some [] ∧ get_page_content (some []) ≠ none := by
  constructor
  · rfl
  · intro h
    simp [get_page_content] at h

/-- C4 amended: `get_page_content` returns the absent value `None` when the
response lacks the results key; when a results list is present but yields no
paragraph text it returns the empty string — a falsy value treated as "no
content" downstream, but not the absent value. -/
theorem get_page_content_absent_cases :
    get_page_content none = none ∧
      ∀ results : List Block, paragraphTexts results = [] →
        get_page_content (some results) = some [] := by
  refine ⟨rfl, ?_⟩
  intro results h
  rw [get_page_content_eq results, h]
  rfl

theorem get_page_content_absent_cases_witness :
    get_page_content none = none ∧
      (paragraphTexts [{ type := "divider".toList, paragraph := ⟨[]⟩ }] = [] ∧
        get_page_content (some [{ type := "divider".toList, paragraph := ⟨[]⟩ }]) = some []) :=
  ⟨get_page_content_absent_cases.1,
   by decide,
   get_page_content_absent_cases.2 [{ type := "divider".toList, paragraph := ⟨[]⟩ }] (by decide)⟩

/-- C5: whenever the model reply splits into fewer than three segments, the
resulting triple is the one fixed diagnostic placeholder result, identical
for every such reply — no partial-success state, no field retaining
model-produced content. -/
theorem correct_grammar_no_partial (r₁ r₂ : PyStr)
    (h₁ : (splitNN (pyStrip r₁)).length < 3)
    (h₂ : (splitNN (pyStrip r₂)).length < 3) :
    correct_grammar r₁ = correct_grammar r₂ ∧
      correct_grammar r₁ = (groqErrorMsg, [], []) :=
  ⟨(correct_grammar_of_short h₁).trans (correct_grammar_of_short h₂).symm,
   correct_grammar_of_short h₁⟩

theorem correct_grammar_no_partial_witness :
    correct_grammar ("Alpha\n\nBeta".toList) = correct_grammar ("Gamma".toList) ∧
      correct_grammar ("Alpha\n\nBeta".toList) = (groqErrorMsg, [], []) :=
  correct_grammar_no_partial ("Alpha\n\nBeta".toList) ("Gamma".toList)
    (by decide) (by decide)

/-- C10: at the function boundary `get_page_content` returns the
distinguished absent value `none` exactly when the response lacks the results
key; when a results list is present but yields no paragraph text it instead
returns the empty string — falsy but non-absent, so callers distinguishing
`None` from the empty string observe two different no-content results. -/
theorem get_page_content_none_iff (data : Option (List Block)) :
    (get_page_content data = none ↔ data = none) ∧
      ∀ results : List Block, data = some results → paragraphTexts results = [] →
        get_page_content data = some [] := by
  constructor
  · cases data with
    | none => simp [get_page_content]
    | some results =>
      rw [get_page_content_eq results]
      simp
  · intro results hdata h
    subst hdata
    rw [get_page_content_eq results, h]
    rfl

theorem get_page_content_none_iff_witness :
    (get_page_content (some []) = none ↔ (some [] : Option (List Block)) = none) ∧
      get_page_content (some []) = some [] :=
  ⟨(get_page_content_none_iff (some [])).1,
   (get_page_content_none_iff (some [])).2 [] rfl (by decide)⟩

/-- C6: if either the text_page_id or the row_page_id query parameter is
missing, the handler responds 400 with a diagnostic body and makes no
outbound call; if both parameters are present (truthy) but the Content Reader
yields no content — an absent or empty result — the handler responds 400
after the read, making no completion call and no write call. -/
theorem trigger_python_rejects (tid rid : Option PyStr) (doc : Option (List Block))
    (reply : PyStr) (ws : Nat) :
    ((tid = none ∨ rid = none) →
      trigger_python tid rid doc reply ws =
        { status := 400, body := missingIdMsg, calls := [] }) ∧
    (pyFalsyOpt tid = false → pyFalsyOpt rid = false →
      (get_page_content doc = none ∨ get_page_content doc = some []) →
      trigger_python tid rid doc reply ws =
        { status := 400, body := noContentMsg, calls := [OutCall.read (tid.getD [])] }) := by
  constructor
  · intro h
    unfold trigger_python
    rcases h with h | h <;> subst h <;> simp [pyFalsyOpt]
  · intro h1 h2 h3
    unfold trigger_python
    rw [h1, h2]
    rcases h3 with h3 | h3 <;> rw [h3] <;> simp [List.isEmpty]

theorem trigger_python_rejects_witness :
    trigger_python (some ("t1".toList)) none (some []) ("Reply".toList) 0 =
        { status := 400, body := missingIdMsg, calls := [] } ∧
      (pyFalsyOpt (some ("t1".toList)) = false ∧ pyFalsyOpt (some ("r1".toList)) = false ∧
        get_page_content (some []) = some [] ∧
        trigger_python (some ("t1".toList)) (some ("r1".toList)) (some []) ("Reply".toList) 0 =
          { status := 400, body := noContentMsg, calls := [OutCall.read ("t1".toList)] }) :=
  ⟨(trigger_python_rejects (some ("t1".toList)) none (some []) ("Reply".toList) 0).1
      (Or.inr rfl),
   by decide, by decide, by decide,
   (trigger_python_rejects (some ("t1".toList)) (some ("r1".toList)) (some [])
      ("Reply".toList) 0).2 (by decide) (by decide) (Or.inr (by decide))⟩

/-- C7: whenever both identifiers are present (truthy) and the Content Reader
yields non-empty content, the handler returns status 200 with the fixed
success HTML page, independently of the write status and of whether the model
reply was malformed; in the malformed-reply case the Result Writer is still
invoked with the triple (diagnostic marker, empty, empty). -/
theorem trigger_python_success (tid rid : Option PyStr) (doc : Option (List Block))
    (reply c : PyStr) (ws ws' : Nat)
    (htid : pyFalsyOpt tid = false) (hrid : pyFalsyOpt rid = false)
    (hdoc : get_page_content doc = some c) (hne : c ≠ []) :
    (trigger_python tid rid doc reply ws).status = 200 ∧
    (trigger_python tid rid doc reply ws).body = success_html ∧
    trigger_python tid rid doc reply ws = trigger_python tid rid doc reply ws' ∧
    (trigger_python tid rid doc reply ws).calls =
      [OutCall.read (tid.getD []), OutCall.complete c,
       OutCall.write (rid.getD []) (correct_grammar reply)] ∧
    ((splitNN (pyStrip reply)).length < 3 →
      (trigger_python tid rid doc reply ws).calls =
        [OutCall.read (tid.getD []), OutCall.complete c,
         OutCall.write (rid.getD []) (groqErrorMsg, [], [])]) := by
  have hce : c.isEmpty = false := by
    cases c with
    | nil => exact absurd rfl hne
    | cons a t => rfl
  have key : ∀ w : Nat, trigger_python tid rid doc reply w =
      { status := 200, body := success_html,
        calls := [OutCall.read (tid.getD []), OutCall.complete c,
                  OutCall.write (rid.getD []) (correct_grammar reply)] } := by
    intro w
    unfold trigger_python
    rw [htid, hrid, hdoc]
    simp [hce]
  refine ⟨by rw [key ws], by rw [key ws], by rw [key ws, key ws'], by rw [key ws], ?_⟩
  intro hshort
  rw [key ws, correct_grammar_of_short hshort]

theorem trigger_python_success_witness :
    (trigger_python (some ("t1".toList)) (some ("r1".toList))
        (some [{ type := "paragraph".toList, paragraph := ⟨[⟨⟨"Essay".toList⟩⟩]⟩ }])
        ("Alpha\n\nBeta".toList) 0).status = 200 ∧
    (trigger_python (some ("t1".toList)) (some ("r1".toList))
        (some [{ type := "paragraph".toList, paragraph := ⟨[⟨⟨"Essay".toList⟩⟩]⟩ }])
        ("Alpha\n\nBeta".toList) 0).body = success_html ∧
    trigger_python (some ("t1".toList)) (some ("r1".toList))
        (some [{ type := "paragraph".toList, paragraph := ⟨[⟨⟨"Essay".toList⟩⟩]⟩ }])
        ("Alpha\n\nBeta".toList) 0 =
      trigger_python (some ("t1".toList)) (some ("r1".toList))
        (some [{ type := "paragraph".toList, paragraph := ⟨[⟨⟨"Essay".toList⟩⟩]⟩ }])
        ("Alpha\n\nBeta".toList) 7 ∧
    (trigger_python (some ("t1".toList)) (some ("r1".toList))
        (some [{ type := "paragraph".toList, paragraph := ⟨[⟨⟨"Essay".toList⟩⟩]⟩ }])
        ("Alpha\n\nBeta".toList) 0).calls =
      [OutCall.read ("t1".toList), OutCall.complete ("Essay".toList),
       OutCall.write ("r1".toList) (correct_grammar ("Alpha\n\nBeta".toList))] ∧
    ((splitNN (pyStrip ("Alpha\n\nBeta".toList))).length < 3 →
      (trigger_python (some ("t1".toList)) (some ("r1".toList))
          (some [{ type := "paragraph".toList, paragraph := ⟨[⟨⟨"Essay".toList⟩⟩]⟩ }])
          ("Alpha\n\nBeta".toList) 0).calls =
        [OutCall.read ("t1".toList), OutCall.complete ("Essay".toList),
         OutCall.write ("r1".toList) (groqErrorMsg, [], [])]) :=
  trigger_python_success (some ("t1".toList)) (some ("r1".toList))
    (some [{ type := "paragraph".toList, paragraph := ⟨[⟨⟨"Essay".toList⟩⟩]⟩ }])
    ("Alpha\n\nBeta".toList) ("Essay".toList) 0 7
    (by decide) (by decide) (by decide) (by decide)

/-- C8: for every triple of input strings, `update_notion_page` issues
exactly one update request, whose three fixed field values equal `clean_text`
applied to the corresponding inputs; every written value is a `clean_text`
fixed point, so no uncleaned input value is ever written. -/
theorem update_notion_page_writes_cleaned (rid ct ea hs : PyStr) :
    update_notion_page rid ct ea hs =
        [{ row_page_id := rid,
           properties := [(fieldCorrected, clean_text ct), (fieldAnalysis, clean_text ea),
                          (fieldTips, clean_text hs)] }] ∧
      (update_notion_page rid ct ea hs).length = 1 ∧
      ∀ u ∈ update_notion_page rid ct ea hs, ∀ p ∈ u.properties, clean_text p.2 = p.2 := by
  refine ⟨rfl, rfl, ?_⟩
  intro u hu p hp
  simp only [update_notion_page, List.mem_singleton] at hu
  subst hu
  simp only [List.mem_cons, List.not_mem_nil, or_false] at hp
  rcases hp with hp | hp | hp <;> subst hp
  · exact clean_text_idem ct
  · exact clean_text_idem ea
  · exact clean_text_idem hs

theorem update_notion_page_writes_cleaned_witness :
    update_notion_page ("row1".toList) ("[修正文] Good text.".toList)
        (" [錯誤分析] none ".toList) ("tip".toList) =
      [{ row_page_id := "row1".toList,
         properties := [(fieldCorrected, "Good text.".toList),
                        (fieldAnalysis, "none".toList),
                        (fieldTips, "tip".toList)] }] ∧
    clean_text ("none".toList) = "none".toList :=
  ⟨((update_notion_page_writes_cleaned ("row1".toList) ("[修正文] Good text.".toList)
        (" [錯誤分析] none ".toList) ("tip".toList)).1).trans (by decide),
   (update_notion_page_writes_cleaned ("row1".toList) ("[修正文] Good text.".toList)
        (" [錯誤分析] none ".toList) ("tip".toList)).2.2
      { row_page_id := "row1".toList,
        properties := [(fieldCorrected, "Good text.".toList),
                       (fieldAnalysis, "none".toList),
                       (fieldTips, "tip".toList)] }
      (by decide) (fieldAnalysis, "none".toList) (by decide)⟩

/-- C9: `clean_text` is idempotent — cleaning an already-cleaned string
changes nothing — and on any input containing no bracketed span (no opening
bracket closed on the same line) it changes nothing beyond trimming leading
and trailing whitespace. -/
theorem clean_text_idempotent_trim (x : PyStr) :
    clean_text (clean_text x) = clean_text x ∧
      (hasSpan x = false → clean_text x = pyStrip x) :=
  ⟨clean_text_idem x, fun h => clean_text_of_not_hasSpan h⟩

theorem clean_text_idempotent_trim_witness :
    clean_text (clean_text ("a [x] b".toList)) = clean_text ("a [x] b".toList) ∧
      (hasSpan ("  plain [open text  ".toList) = false ∧
        clean_text ("  plain [open text  ".toList) = pyStrip ("  plain [open text  ".toList)) :=
  ⟨(clean_text_idempotent_trim ("a [x] b".toList)).1, by decide,
   (clean_text_idempotent_trim ("  plain [open text  ".toList)).2 (by decide)⟩
